import Mathlib

/-!
Shallow embedding of the trajectory data pipeline in
`sgan/data/archived/trajectories_general_by_schema.py`:
the schema-driven row encoder (`TrajectoryDataset.parse_file`), the frame
grouper and sequence windower (`TrajectoryDataset.__init__`), the
non-linearity classifier (`poly_fit`), the dataset container
(`__len__` / `__getitem__`) and the batch collator (`seq_collate`).

Numbers are modelled by `ℚ` (the source works on parsed Python floats),
fallible operations (Python exceptions: failed list lookups, numpy shape /
concatenation errors, out-of-range indexing) by `Option`.
-/

/-- A parsed token of an input line: `read_file` coerces numeric-looking
tokens to float and leaves the others (such as the literal `"ball"` or the
quoted position-tag string) as strings. -/
inductive Val where
  | num (q : ℚ)
  | str (s : String)
deriving DecidableEq, Repr

def Val.isNum : Val → Bool
  | .num _ => true
  | .str _ => false

def Val.toQ : Val → ℚ
  | .num q => q
  | .str _ => 0

/-- Model of Python `str(value)`: on the floats appearing as team ids
(integral values, the realistic case) Python prints `"7.0"`; on strings it
is the identity.  Only injectivity and the leading character (digit or
minus sign, both below the letter `b`) matter downstream. -/
def Val.pyStr : Val → String
  | .num q => if q.den = 1 then toString q.num ++ ".0" else toString q
  | .str s => s

/-- Lexicographic comparison of two strings by code points, the ordering
Python and numpy use on the string-coerced team-id column. -/
def lexLe : List Char → List Char → Bool
  | [], _ => true
  | _ :: _, [] => false
  | a :: as, b :: bs =>
    if a.toNat < b.toNat then true
    else if b.toNat < a.toNat then false
    else lexLe as bs

def strLe (s1 s2 : String) : Bool := lexLe s1.toList s2.toList

/-- Insertion step of the sort used to model `np.unique`'s value ordering. -/
def insertLe (le : α → α → Bool) (a : α) : List α → List α
  | [] => [a]
  | b :: bs => if le a b then a :: b :: bs else b :: insertLe le a bs

/-- Sort modelling the ordering performed by `np.unique`. -/
def sortLe (le : α → α → Bool) (l : List α) : List α := l.foldr (insertLe le) []

/-- `np.unique` on a float column: the sorted list of distinct values. -/
def npUniqueQ (l : List ℚ) : List ℚ := sortLe (fun a b => decide (a ≤ b)) l.dedup

/-- `np.unique` on the raw team-id column (source line 307,
`np.unique([line[2] for line in lines]).tolist()`).  When every value is a
float, numpy sorts the distinct floats; as soon as one value is a string
(e.g. the literal `"ball"`), numpy coerces every value to its string form
and sorts those lexicographically. -/
def npUniqueVal (l : List Val) : List Val :=
  if l.all Val.isNum then sortLe (fun a b => decide (a.toQ ≤ b.toQ)) l.dedup
  else sortLe (fun a b => strLe a.pyStr b.pyStr) ((l.map (fun v => Val.str v.pyStr)).dedup)

/-- The dataset schema: position category labels and whether a dedicated
ball pseudo-team slot exists. -/
structure Schema where
  positions : List String
  with_ball : Bool
deriving DecidableEq, Repr

/-- `team_vec_len = 3 if with_ball else 2` (source line 311). -/
def teamVecLen (schema : Schema) : Nat := if schema.with_ball then 3 else 2

/-- `self.team_slice = [5, 5 + team_vec_len]` (source line 312). -/
def team_slice (schema : Schema) : Nat × Nat := (5, 5 + teamVecLen schema)

/-- `self.pos_slice = [5 + team_vec_len, 5 + team_vec_len + len(pos_ids)]`
(source line 313). -/
def pos_slice (schema : Schema) : Nat × Nat :=
  (5 + teamVecLen schema, 5 + teamVecLen schema + schema.positions.length)

/-- An encoded row, `idx, frame_id, player_id, pos_x, pos_y` followed by the
team vector and the position vector (docstring of `TrajectoryDataset`). -/
structure Row where
  idx : ℚ
  frame : ℚ
  ped : ℚ
  x : ℚ
  y : ℚ
  team : List ℚ
  pos : List ℚ
deriving DecidableEq, Repr

def dRow : Row := ⟨0, 0, 0, 0, 0, [], []⟩

/-- The encoded row as the flat numeric vector `np.asarray` produces:
base fields at columns 0-4, then the team vector, then the position
vector. -/
def flatRow (r : Row) : List ℚ := [r.idx, r.frame, r.ped, r.x, r.y] ++ r.team ++ r.pos

/-- Python slice `l[a:b]` for `0 ≤ a ≤ b`. -/
def sliceRead (l : List ℚ) (se : Nat × Nat) : List ℚ := (l.drop se.1).take (se.2 - se.1)

/-- Team lookup of source lines 325-329: first `value in team_ids`, then
`str(value) in team_ids`; if both fail the Python code reads the unbound
variable `team` (a fatal error), modelled as `none`. -/
def teamLookup (team_ids : List Val) (v : Val) : Option Nat :=
  if v ∈ team_ids then List.indexOf? v team_ids
  else if Val.str v.pyStr ∈ team_ids then List.indexOf? (Val.str v.pyStr) team_ids
  else none

/-- Team one-hot encoding (source lines 317, 320-330): `team_vector` is
always `[0.0] * 3`; the literal `"ball"` sets the last slot, any other id
sets the looked-up slot.  A lookup index `≥ 3` raises `IndexError` in the
source (`team_vector[team]`), modelled as `none`. -/
def encodeTeamVec (team_ids : List Val) (v : Val) : Option (List ℚ) :=
  if v = Val.str "ball" then some [0, 0, 1]
  else
    match teamLookup team_ids v with
    | some t => if t < 3 then some (([0, 0, 0] : List ℚ).set t 1) else none
    | none => none

/-- Python `value.strip('"')`: remove leading and trailing quote
characters. -/
def stripQuotes (cs : List Char) : List Char :=
  ((cs.dropWhile (· == '"')).reverse.dropWhile (· == '"')).reverse

/-- Python `s.split(",")`: split on every comma, keeping empty chunks
(`"".split(",")` is `[""]`). -/
def splitOnComma : List Char → List (List Char)
  | [] => [[]]
  | c :: rest =>
    if c = ',' then [] :: splitOnComma rest
    else
      match splitOnComma rest with
      | [] => [[c]]
      | chunk :: chunks => (c :: chunk) :: chunks

/-- One step of the position-vector loop (source lines 338-339):
`pos_vector[pos_ids.index(pos)] = 1.0`, where an unknown label raises
`ValueError`, modelled as `none`. -/
def posStep (pos_ids : List String) (acc : Option (List ℚ)) (p : String) : Option (List ℚ) :=
  match acc with
  | none => none
  | some vec =>
    match List.indexOf? p pos_ids with
    | some i => some (vec.set i 1)
    | none => none

/-- Position multi-hot encoding (source lines 336-339): split the stripped
tag on commas and set one bit per label. -/
def encodePosVec (pos_ids : List String) (tag : String) : Option (List ℚ) :=
  ((splitOnComma (stripQuotes tag.toList)).map String.mk).foldl (posStep pos_ids)
    (some (List.replicate pos_ids.length 0))

/-- Player-id encoding (source lines 331-335): the literal `"ball"` maps to
the sentinel `-1.0`; floats pass through.  Any other string would survive
into the base row and force a string-dtype array, modelled as `none`. -/
def encodePed : Val → Option ℚ
  | .str s => if s = "ball" then some (-1) else none
  | .num q => some q

/-- Encoding of one raw line by `TrajectoryDataset.parse_file`
(source lines 315-344).  Lines must carry numeric idx / frame / x / y and a
position-tag column exactly when the schema declares positions; shapes
whose `np.asarray` result would not be a numeric matrix (a non-numeric
token surviving into the base row) are modelled as a parse failure. -/
def encodeLine (schema : Schema) (team_ids : List Val) (line : List Val) : Option Row :=
  match line with
  | [Val.num c0, Val.num c1, tv, pv, Val.num c4, Val.num c5] =>
    match encodeTeamVec team_ids tv, encodePed pv with
    | some team, some ped =>
      some { idx := c0, frame := c1, ped := ped, x := c4, y := c5,
             team := team, pos := List.replicate schema.positions.length 0 }
    | _, _ => none
  | [Val.num c0, Val.num c1, tv, pv, Val.num c4, Val.num c5, Val.str tag] =>
    if 0 < schema.positions.length then
      match encodeTeamVec team_ids tv, encodePed pv, encodePosVec schema.positions tag with
      | some team, some ped, some pos =>
        some { idx := c0, frame := c1, ped := ped, x := c4, y := c5,
               team := team, pos := pos }
      | _, _, _ => none
    else none
  | _ => none

/-- `TrajectoryDataset.parse_file` (source lines 298-345): collect the
distinct raw team-id values (including the `"ball"` literal — line 307),
then encode every line. -/
def parse_file (schema : Schema) (lines : List (List Val)) : Option (List Row) :=
  if lines.all (fun l => 2 < l.length) then
    lines.mapM (encodeLine schema (npUniqueVal (lines.map (fun l => l.getD 2 (Val.num 0)))))
  else none

/-! ### Non-linearity classifier (`poly_fit`, source lines 111-126) -/

/-- Power sum `∑ i^k` over the synthetic sample index `0..n-1`
(`np.linspace(0, traj_len - 1, traj_len)`). -/
def powS (n k : Nat) : ℚ := ∑ i ∈ Finset.range n, (i : ℚ) ^ k

/-- Moment `∑ i^k * y i` of the fitted samples. -/
def momS (n : Nat) (y : Nat → ℚ) (k : Nat) : ℚ := ∑ i ∈ Finset.range n, (i : ℚ) ^ k * y i

/-- Determinant of the degree-2 normal-equation matrix
`[[S0,S1,S2],[S1,S2,S3],[S2,S3,S4]]`. -/
def fitDet (n : Nat) : ℚ :=
  powS n 0 * (powS n 2 * powS n 4 - powS n 3 * powS n 3)
    - powS n 1 * (powS n 1 * powS n 4 - powS n 2 * powS n 3)
    + powS n 2 * (powS n 1 * powS n 3 - powS n 2 * powS n 2)

/-- Constant coefficient of the least-squares quadratic (Cramer's rule). -/
def beta0 (n : Nat) (y : Nat → ℚ) : ℚ :=
  (momS n y 0 * (powS n 2 * powS n 4 - powS n 3 * powS n 3)
    - powS n 1 * (momS n y 1 * powS n 4 - momS n y 2 * powS n 3)
    + powS n 2 * (momS n y 1 * powS n 3 - momS n y 2 * powS n 2)) / fitDet n

/-- Linear coefficient of the least-squares quadratic (Cramer's rule). -/
def beta1 (n : Nat) (y : Nat → ℚ) : ℚ :=
  (powS n 0 * (momS n y 1 * powS n 4 - momS n y 2 * powS n 3)
    - momS n y 0 * (powS n 1 * powS n 4 - powS n 2 * powS n 3)
    + powS n 2 * (powS n 1 * momS n y 2 - powS n 2 * momS n y 1)) / fitDet n

/-- Quadratic coefficient of the least-squares quadratic (Cramer's rule). -/
def beta2 (n : Nat) (y : Nat → ℚ) : ℚ :=
  (powS n 0 * (powS n 2 * momS n y 2 - powS n 3 * momS n y 1)
    - powS n 1 * (powS n 1 * momS n y 2 - powS n 2 * momS n y 1)
    + momS n y 0 * (powS n 1 * powS n 3 - powS n 2 * powS n 2)) / fitDet n

/-- Sum of squared residuals of the quadratic `a + b t + c t²` against the
samples `y 0 .. y (n-1)`. -/
def ssrQ (n : Nat) (y : Nat → ℚ) (a b c : ℚ) : ℚ :=
  ∑ i ∈ Finset.range n, (y i - (a + b * i + c * i ^ 2)) ^ 2

/-- Residual returned by `np.polyfit(t, samples, 2, full=True)[1]`: the sum
of squared residuals at the least-squares quadratic (shown minimal in the
`C7` theorem); modelled by the normal-equation solution. -/
def polyfitRes (l : List ℚ) : ℚ :=
  ssrQ l.length (fun i => l.getD i 0)
    (beta0 l.length (fun i => l.getD i 0))
    (beta1 l.length (fun i => l.getD i 0))
    (beta2 l.length (fun i => l.getD i 0))

/-- Python `l[-n:]` for `n ≤ len(l)`. -/
def lastN (l : List ℚ) (n : Nat) : List ℚ := l.drop (l.length - n)

/-- `poly_fit(traj, traj_len, threshold)` (source lines 111-126): fit the
last `traj_len` x- and y-samples, return `1.0` when the summed residuals
reach the threshold and `0.0` otherwise. -/
def poly_fit (trajx trajy : List ℚ) (traj_len : Nat) (threshold : ℚ) : ℚ :=
  if threshold ≤ polyfitRes (lastN trajx traj_len) + polyfitRes (lastN trajy traj_len)
  then 1 else 0

/-! ### Sequence windower (`TrajectoryDataset.__init__`, source lines 170-282) -/

/-- Round-half-even of a rational, the rounding mode of `np.around`. -/
def roundHalfEven (q : ℚ) : ℤ :=
  if q - ⌊q⌋ < 1 / 2 then ⌊q⌋
  else if (1 : ℚ) / 2 < q - ⌊q⌋ then ⌊q⌋ + 1
  else if ⌊q⌋ % 2 = 0 then ⌊q⌋ else ⌊q⌋ + 1

/-- `np.around(x, decimals=4)`. -/
def around4 (q : ℚ) : ℚ := (roundHalfEven (q * 10000) : ℚ) / 10000

/-- `np.around(curr_ped_seq_full, decimals=4)` (source line 208), applied to
every column of the agent's rows. -/
def roundRow (r : Row) : Row :=
  { idx := around4 r.idx, frame := around4 r.frame, ped := around4 r.ped,
    x := around4 r.x, y := around4 r.y,
    team := r.team.map around4, pos := r.pos.map around4 }

/-- Construction parameters of `TrajectoryDataset.__init__`. -/
structure Params where
  schema : Schema
  obs_len : Nat
  pred_len : Nat
  skip : Nat
  threshold : ℚ
  min_ped : Nat
  metric : String
deriving DecidableEq, Repr

/-- `self.seq_len = self.obs_len + self.pred_len` (source line 161). -/
def Params.seq_len (p : Params) : Nat := p.obs_len + p.pred_len

/-- Foot-to-meter factor (source lines 165-168). -/
def Params.factor (p : Params) : ℚ := if p.metric = "meter" then 3048 / 10000 else 1

/-- `frames = np.unique(data[:, 0]).tolist()` (source line 183): the
distinct, sorted values of column 0 of the encoded data. -/
def framesOf (data : List Row) : List ℚ := npUniqueQ (data.map (·.idx))

/-- `frame_data.append(data[frame == data[:, 1], :])` (source lines 184-186):
for each value of `frames`, the rows whose column 1 (the frame id) equals
it. -/
def frame_blocks (data : List Row) : List (List Row) :=
  (framesOf data).map (fun f => data.filter (fun r => decide (r.frame = f)))

/-- `⌈a / b⌉` for `b > 0`, the value of `int(math.ceil(a / b))`. -/
def ceilDivI (a b : ℤ) : ℤ := (a + b - 1) / b

/-- `num_sequences = int(math.ceil((len(frames) -
self.seq_len + 1) / skip))` (source lines 187-188). -/
def num_sequences (F W skip : Nat) : ℤ := ceilDivI ((F : ℤ) - (W : ℤ) + 1) (skip : ℤ)

/-- Python `range(0, stop, step)` for `step ≥ 1`, as a list of naturals. -/
def pyRangeStep (stop : ℤ) (step : Nat) : List Nat :=
  if stop ≤ 0 then [] else (List.range ((stop.toNat + step - 1) / step)).map (· * step)

/-- The iterated window start indices,
`range(0, num_sequences * self.skip + 1, skip)` (source line 190). -/
def window_starts (F W skip : Nat) : List Nat :=
  pyRangeStep (num_sequences F W skip * (skip : ℤ) + 1) skip

/-- `rel_curr_ped_seq` (source lines 216-217): first entry zero, then the
backward first difference of the absolute sequence. -/
def relOf (abs : List (ℚ × ℚ)) : List (ℚ × ℚ) :=
  match abs with
  | [] => []
  | _ :: _ => ((0 : ℚ), (0 : ℚ)) :: ((abs.drop 1).zipWith (fun a b => (a.1 - b.1, a.2 - b.2)) abs)

/-- Transpose of a `(W × d)` slice list into `d` rows of length `W`
(`np.transpose`, rectangular input). -/
def transposeD (rows : List (List ℚ)) (d : Nat) : List (List ℚ) :=
  (List.range d).map (fun i => rows.map (fun r => r.getD i 0))

/-- One kept agent of one window: its rounded rows and the per-agent tensors
the windower stores for it. -/
structure Agent where
  ped : ℚ
  rows : List Row
  absSeq : List (ℚ × ℚ)
  relSeq : List (ℚ × ℚ)
  teamSeq : List (List ℚ)
  posSeq : List (List ℚ)
  nonLinear : ℚ
  lossMask : List ℚ
deriving DecidableEq, Repr

/-- The tensors stored for a kept agent (source lines 213-233): scaled
absolute positions, relative positions, team / position slices transposed to
`(dim × seq_len)`, the non-linearity flag and the all-ones loss mask. -/
def mkAgent (p : Params) (pedId : ℚ) (full : List Row) : Agent :=
  { ped := pedId,
    rows := full,
    absSeq := full.map (fun r => (r.x * p.factor, r.y * p.factor)),
    relSeq := relOf (full.map (fun r => (r.x * p.factor, r.y * p.factor))),
    teamSeq := transposeD (full.map (fun r => sliceRead (flatRow r) (team_slice p.schema)))
      (teamVecLen p.schema),
    posSeq := transposeD (full.map (fun r => sliceRead (flatRow r) (pos_slice p.schema)))
      p.schema.positions.length,
    nonLinear := poly_fit ((full.map (fun r => (r.x * p.factor, r.y * p.factor))).map Prod.fst)
      ((full.map (fun r => (r.x * p.factor, r.y * p.factor))).map Prod.snd)
      p.pred_len p.threshold,
    lossMask := List.replicate p.seq_len 1 }

/-- Processing of one agent of one window (source lines 206-235).
Outer `none`: a Python exception (a frame id missing from `frames` at
`frames.index`, or the numpy slice assignment
`curr_seq[_idx, :, pad_front:pad_end] = curr_ped_seq` failing because the
window-relative padding offsets do not give a width-`seq_len` target, which
forces `pad_front = 0` for kept agents).  Inner `none`: the agent fails the
span / row-count check of source line 211 and is skipped (`continue`). -/
def processAgent (p : Params) (frames : List ℚ) (idx : Nat) (pedId : ℚ)
    (pedRows : List Row) : Option (Option Agent) :=
  match pedRows.map roundRow with
  | [] => none
  | f0 :: rest =>
    match List.indexOf? f0.frame frames,
        List.indexOf? ((f0 :: rest).getLastD dRow).frame frames with
    | some i0, some i1 =>
      if ((i1 : ℤ) - idx + 1) - ((i0 : ℤ) - idx) ≠ (p.seq_len : ℤ)
          ∨ (f0 :: rest).length ≠ p.seq_len then
        some none
      else if (i0 : ℤ) - idx = 0 then
        some (some (mkAgent p pedId (f0 :: rest)))
      else none
    | _, _ => none

/-- Processing of every distinct agent id of a window in order, keeping the
agents that pass the checks; a Python exception aborts everything. -/
def collectAgents (p : Params) (frames : List ℚ) (idx : Nat) (curr : List Row) :
    List ℚ → Option (List Agent)
  | [] => some []
  | pedId :: rest =>
    match processAgent p frames idx pedId (curr.filter (fun r => decide (r.ped = pedId))) with
    | none => none
    | some none => collectAgents p frames idx curr rest
    | some (some a) =>
      match collectAgents p frames idx curr rest with
      | none => none
      | some l => some (a :: l)

/-- `curr_seq_data = np.concatenate(frame_data[idx:idx + self.seq_len])`
(source lines 191-192). -/
def windowData (frame_data : List (List Row)) (idx W : Nat) : List Row :=
  ((frame_data.drop idx).take W).flatten

/-- One window (source lines 190-235): concatenate the `seq_len` frame
blocks starting at `idx` (`np.concatenate` of an empty block sequence
raises, hence `none`), take the distinct sorted agent ids, process each. -/
def processWindow (p : Params) (frames : List ℚ) (frame_data : List (List Row))
    (idx : Nat) : Option (List Agent) :=
  if ((frame_data.drop idx).take p.seq_len).isEmpty then none
  else
    collectAgents p frames idx (windowData frame_data idx p.seq_len)
      (npUniqueQ ((windowData frame_data idx p.seq_len).map (·.ped)))

/-- A retained window: its start index and its kept agents. -/
structure Window where
  startIdx : Nat
  agents : List Agent
deriving DecidableEq, Repr

/-- The windows of one file retained by the `num_peds_considered > min_ped`
test of source line 237, in iteration order. -/
def buildWindowsGo (p : Params) (frames : List ℚ) (frame_data : List (List Row)) :
    List Nat → Option (List Window)
  | [] => some []
  | idx :: rest =>
    match processWindow p frames frame_data idx with
    | none => none
    | some agents =>
      match buildWindowsGo p frames frame_data rest with
      | none => none
      | some ws =>
        if p.min_ped < agents.length then some (⟨idx, agents⟩ :: ws) else some ws

/-- All retained windows of one parsed file (source lines 183-244). -/
def buildFileWindows (p : Params) (data : List Row) : Option (List Window) :=
  buildWindowsGo p (framesOf data) (frame_blocks data)
    (window_starts (framesOf data).length p.seq_len p.skip)

/-- Windows accumulated over a list of files, each parsed by
`parse_file`. -/
def allWindows (p : Params) : List (List (List Val)) → Option (List Window)
  | [] => some []
  | f :: rest =>
    match parse_file p.schema f with
    | none => none
    | some rows =>
      match buildFileWindows p rows, allWindows p rest with
      | some ws, some more => some (ws ++ more)
      | _, _ => none

/-! ### Dataset container and batch collator -/

/-- `cum_start_idx = [0] + np.cumsum(lens).tolist()` (source lines 29, 278). -/
def cum_start_idx (lens : List Nat) : List Nat := lens.scanl (· + ·) 0

/-- `zip(cum_start_idx, cum_start_idx[1:])` (source lines 30-31, 279-282). -/
def seqStartEndOf (lens : List Nat) : List (Nat × Nat) :=
  (cum_start_idx lens).zip ((cum_start_idx lens).drop 1)

/-- The `(2 × seq_len)` absolute-position tensor of a kept agent. -/
def Agent.seqT (a : Agent) : List (List ℚ) := [a.absSeq.map Prod.fst, a.absSeq.map Prod.snd]

/-- The `(2 × seq_len)` relative-position tensor of a kept agent. -/
def Agent.relT (a : Agent) : List (List ℚ) := [a.relSeq.map Prod.fst, a.relSeq.map Prod.snd]

/-- The constructed dataset: the per-agent tensors of all kept windows of
all processed files concatenated along the agent axis, split at `obs_len`
into observed and predicted halves, plus the window-to-agent-range index
(source lines 246-282). -/
structure TrajectoryDataset where
  num_seq : Nat
  obs_traj : List (List (List ℚ))
  pred_traj : List (List (List ℚ))
  obs_traj_rel : List (List (List ℚ))
  pred_traj_rel : List (List (List ℚ))
  obs_team_vec : List (List (List ℚ))
  obs_pos_vec : List (List (List ℚ))
  obs_team_vec_pred : List (List (List ℚ))
  obs_pos_vec_pred : List (List (List ℚ))
  loss_mask : List (List ℚ)
  non_linear_ped : List ℚ
  seq_start_end : List (Nat × Nat)
deriving DecidableEq, Repr

/-- Assembly of the dataset tensors from the retained windows
(source lines 246-282). -/
def mkDataset (p : Params) (windows : List Window) : TrajectoryDataset :=
  { num_seq := windows.length,
    obs_traj := ((windows.map Window.agents).flatten).map
      (fun a => a.seqT.map (List.take p.obs_len)),
    pred_traj := ((windows.map Window.agents).flatten).map
      (fun a => a.seqT.map (List.drop p.obs_len)),
    obs_traj_rel := ((windows.map Window.agents).flatten).map
      (fun a => a.relT.map (List.take p.obs_len)),
    pred_traj_rel := ((windows.map Window.agents).flatten).map
      (fun a => a.relT.map (List.drop p.obs_len)),
    obs_team_vec := ((windows.map Window.agents).flatten).map
      (fun a => a.teamSeq.map (List.take p.obs_len)),
    obs_pos_vec := ((windows.map Window.agents).flatten).map
      (fun a => a.posSeq.map (List.take p.obs_len)),
    obs_team_vec_pred := ((windows.map Window.agents).flatten).map
      (fun a => a.teamSeq.map (List.drop p.obs_len)),
    obs_pos_vec_pred := ((windows.map Window.agents).flatten).map
      (fun a => a.posSeq.map (List.drop p.obs_len)),
    loss_mask := ((windows.map Window.agents).flatten).map Agent.lossMask,
    non_linear_ped := ((windows.map Window.agents).flatten).map Agent.nonLinear,
    seq_start_end := seqStartEndOf (windows.map (fun w => w.agents.length)) }

/-- `TrajectoryDataset.__init__`: process only the first two files of the
directory listing (source line 180, `all_files[:2]`), retain their windows
and build the tensors.  `none` models a Python exception, including
`np.concatenate` on the empty window list (source line 247). -/
def buildDataset (p : Params) (files : List (List (List Val))) : Option TrajectoryDataset :=
  match allWindows p (files.take 2) with
  | none => none
  | some [] => none
  | some (w :: ws) => some (mkDataset p (w :: ws))

/-- The 10-tuple returned by `TrajectoryDataset.__getitem__`
(source lines 287-296). -/
structure GetOut where
  obs_traj : List (List (List ℚ))
  pred_traj : List (List (List ℚ))
  obs_traj_rel : List (List (List ℚ))
  pred_traj_rel : List (List (List ℚ))
  obs_team_vec : List (List (List ℚ))
  obs_pos_vec : List (List (List ℚ))
  pred_team_vec : List (List (List ℚ))
  pred_pos_vec : List (List (List ℚ))
  non_linear_ped : List ℚ
  loss_mask : List (List ℚ)
deriving DecidableEq, Repr

/-- Python slice `l[s:e]` on the agent axis. -/
def sliceL (l : List α) (s e : Nat) : List α := (l.drop s).take (e - s)

/-- The sample carved out of the concatenated tensors by one
`(start, end)` agent range (the body of `__getitem__`). -/
def sampleOf (d : TrajectoryDataset) (se : Nat × Nat) : GetOut :=
  { obs_traj := sliceL d.obs_traj se.1 se.2,
    pred_traj := sliceL d.pred_traj se.1 se.2,
    obs_traj_rel := sliceL d.obs_traj_rel se.1 se.2,
    pred_traj_rel := sliceL d.pred_traj_rel se.1 se.2,
    obs_team_vec := sliceL d.obs_team_vec se.1 se.2,
    obs_pos_vec := sliceL d.obs_pos_vec se.1 se.2,
    pred_team_vec := sliceL d.obs_team_vec_pred se.1 se.2,
    pred_pos_vec := sliceL d.obs_pos_vec_pred se.1 se.2,
    non_linear_ped := sliceL d.non_linear_ped se.1 se.2,
    loss_mask := sliceL d.loss_mask se.1 se.2 }

/-- The window sample at a (wrapped, in-range) position: every tensor
restricted to the window's agent range `seq_start_end[i]`. -/
def TrajectoryDataset.getN (d : TrajectoryDataset) (i : Nat) : GetOut :=
  sampleOf d (d.seq_start_end.getD i (0, 0))

/-- `TrajectoryDataset.__getitem__` (source lines 287-296):
`self.seq_start_end[index]` uses Python list indexing, which wraps negative
indices once and raises `IndexError` (modelled as `none`) outside
`[-len, len)`.  `__len__` is `num_seq`, which equals the length of
`seq_start_end` for constructed datasets. -/
def TrajectoryDataset.get (d : TrajectoryDataset) (index : ℤ) : Option GetOut :=
  if 0 ≤ index ∧ index < (d.num_seq : ℤ) then some (d.getN index.toNat)
  else if -(d.num_seq : ℤ) ≤ index ∧ index < 0 then
    some (d.getN ((d.num_seq : ℤ) + index).toNat)
  else none

/-- The output tuple of `seq_collate` (source lines 23-54). -/
structure CollateOut where
  obs_traj : List (List (List ℚ))
  pred_traj : List (List (List ℚ))
  obs_traj_rel : List (List (List ℚ))
  pred_traj_rel : List (List (List ℚ))
  obs_team_vec : List (List (List ℚ))
  obs_pos_vec : List (List (List ℚ))
  pred_team_vec : List (List (List ℚ))
  pred_pos_vec : List (List (List ℚ))
  non_linear_ped : List ℚ
  loss_mask : List (List ℚ)
  seq_start_end : List (Nat × Nat)
deriving DecidableEq, Repr

/-- `.permute(2, 0, 1)` of a rectangular `(agent × feature × time)` tensor:
reorder to `(time × agent × feature)`. -/
def permute201 (t : List (List (List ℚ))) : List (List (List ℚ)) :=
  (List.range (((t.headD []).headD []).length)).map
    (fun c => t.map (fun a => a.map (fun f => f.getD c 0)))

/-- `seq_collate` (source lines 23-54): concatenate every tensor of the
samples along the agent axis (`torch.cat(..., dim=0)`), permute the
windowed tensors to `(time, agent, feature)`, and rebuild the cumulative
`(start, end)` ranges from the per-sample agent counts. -/
def seq_collate (data : List GetOut) : CollateOut :=
  { obs_traj := permute201 ((data.map (·.obs_traj)).flatten),
    pred_traj := permute201 ((data.map (·.pred_traj)).flatten),
    obs_traj_rel := permute201 ((data.map (·.obs_traj_rel)).flatten),
    pred_traj_rel := permute201 ((data.map (·.pred_traj_rel)).flatten),
    obs_team_vec := permute201 ((data.map (·.obs_team_vec)).flatten),
    obs_pos_vec := permute201 ((data.map (·.obs_pos_vec)).flatten),
    pred_team_vec := permute201 ((data.map (·.pred_team_vec)).flatten),
    pred_pos_vec := permute201 ((data.map (·.pred_pos_vec)).flatten),
    non_linear_ped := (data.map (·.non_linear_ped)).flatten,
    loss_mask := (data.map (·.loss_mask)).flatten,
    seq_start_end := seqStartEndOf (data.map (fun s => s.obs_traj.length)) }

/-- The full list of window samples, `[dataset[i] for i in range(len(dataset))]`. -/
def allSamples (ds : TrajectoryDataset) : List GetOut :=
  (List.range ds.num_seq).map ds.getN

/-- Energy of a quadratic over the sample index range. -/
def deltaSq (n : Nat) (d0 d1 d2 : ℚ) : ℚ :=
  ∑ i ∈ Finset.range n, (d0 + d1 * i + d2 * (i : ℚ) ^ 2) ^ 2

/-- The normal-equation matrix of the degree-2 fit. -/
def gramM (n : Nat) : Matrix (Fin 3) (Fin 3) ℚ :=
  !![powS n 0, powS n 1, powS n 2;
     powS n 1, powS n 2, powS n 3;
     powS n 2, powS n 3, powS n 4]

/-! ### A concrete pipeline run: one agent over five frames -/

def wSchema : Schema := ⟨["C", "F", "G"], true⟩

def wParams : Params := ⟨wSchema, 1, 4, 1, 1 / 500, 0, "foot"⟩

def wLine (k : ℚ) : List Val :=
  [Val.num k, Val.num k, Val.num 7, Val.num 1, Val.num k, Val.num 0, Val.str "\"C\""]

def wLines : List (List Val) := [wLine 0, wLine 1, wLine 2, wLine 3, wLine 4]

def wRow (k : ℚ) : Row := ⟨k, k, 1, k, 0, [1, 0, 0], [1, 0, 0]⟩

def wRows : List Row := [wRow 0, wRow 1, wRow 2, wRow 3, wRow 4]

def wAgent : Agent :=
  ⟨1, wRows, [(0, 0), (1, 0), (2, 0), (3, 0), (4, 0)], [(0, 0), (1, 0), (1, 0), (1, 0), (1, 0)],
    [[1, 1, 1, 1, 1], [0, 0, 0, 0, 0], [0, 0, 0, 0, 0]],
    [[1, 1, 1, 1, 1], [0, 0, 0, 0, 0], [0, 0, 0, 0, 0]], 0, [1, 1, 1, 1, 1]⟩

def wWin : Window := ⟨0, [wAgent]⟩

def wDs : TrajectoryDataset :=
  { num_seq := 1,
    obs_traj := [[[0], [0]]],
    pred_traj := [[[1, 2, 3, 4], [0, 0, 0, 0]]],
    obs_traj_rel := [[[0], [0]]],
    pred_traj_rel := [[[1, 1, 1, 1], [0, 0, 0, 0]]],
    obs_team_vec := [[[1], [0], [0]]],
    obs_pos_vec := [[[1], [0], [0]]],
    obs_team_vec_pred := [[[1, 1, 1, 1], [0, 0, 0, 0], [0, 0, 0, 0]]],
    obs_pos_vec_pred := [[[1, 1, 1, 1], [0, 0, 0, 0], [0, 0, 0, 0]]],
    loss_mask := [[1, 1, 1, 1, 1]],
    non_linear_ped := [0],
    seq_start_end := [(0, 1)] }

/-- Two encoded rows whose column 0 (the running `idx`) differs from their
column 1 (the frame id). -/
def c2data : List Row :=
  [{ dRow with idx := 0, frame := 100 }, { dRow with idx := 1, frame := 101 }]

def c4schema : Schema := ⟨["C", "F", "G"], false⟩

def c4line : List Val :=
  [Val.num 0, Val.num 0, Val.num 7, Val.num 3, Val.num 1, Val.num 2, Val.str "\"C\""]

def c4row : Row := ⟨0, 0, 3, 1, 2, [1, 0, 0], [1, 0, 0]⟩

def c5lines : List (List Val) :=
  [[Val.num 0, Val.num 0, Val.num 7, Val.num 3, Val.num 1, Val.num 2, Val.str "\"C\""],
   [Val.num 0, Val.num 0, Val.str "ball", Val.str "ball", Val.num 1, Val.num 2, Val.str "\"C\""]]

def c5BallLine : List Val :=
  [Val.num 0, Val.num 0, Val.str "ball", Val.str "ball", Val.num 1, Val.num 2, Val.str "\"C\""]

def c5BallRow : Row := ⟨0, 0, -1, 1, 2, [0, 0, 1], [1, 0, 0]⟩

/-! ### Cumulative-range lemmas -/

/-- Recursive description of the cumulative `(start, end)` ranges. -/
def pairsFrom (s : Nat) : List Nat → List (Nat × Nat)
  | [] => []
  | n :: rest => (s, s + n) :: pairsFrom (s + n) rest

theorem scanl_zip_eq_pairsFrom (lens : List Nat) (s : Nat) :
    (lens.scanl (· + ·) s).zip ((lens.scanl (· + ·) s).drop 1) = pairsFrom s lens := by
  induction lens generalizing s with
  | nil => rfl
  | cons n rest ih =>
    have h1 : List.scanl (· + ·) s (n :: rest) = s :: List.scanl (· + ·) (s + n) rest := rfl
    obtain ⟨t2, h2⟩ : ∃ t2, List.scanl (· + ·) (s + n) rest = (s + n) :: t2 := by
      cases rest <;> exact ⟨_, rfl⟩
    have h3 := ih (s + n)
    rw [h2, List.drop_one, List.tail_cons] at h3
    rw [h1, h2, List.drop_one, List.tail_cons, List.zip_cons_cons, pairsFrom, h3]

theorem seqStartEndOf_eq_pairsFrom (lens : List Nat) :
    seqStartEndOf lens = pairsFrom 0 lens := by
  simpa [seqStartEndOf, cum_start_idx] using scanl_zip_eq_pairsFrom lens 0

theorem pairsFrom_length (s : Nat) (lens : List Nat) :
    (pairsFrom s lens).length = lens.length := by
  induction lens generalizing s with
  | nil => rfl
  | cons n rest ih => simp [pairsFrom, ih]

theorem pairsFrom_getLastD (s : Nat) (lens : List Nat) (h : lens ≠ []) (d : Nat × Nat) :
    ((pairsFrom s lens).getLastD d).2 = s + lens.sum := by
  induction lens generalizing s d with
  | nil => exact absurd rfl h
  | cons n rest ih =>
    cases rest with
    | nil => simp [pairsFrom]
    | cons m t =>
      rw [pairsFrom, List.getLastD_cons, ih (s + n) (by simp) (s, s + n)]
      simp [Nat.add_assoc]

/-- Slicing a list of total length `s + lens.sum` along `pairsFrom s lens`
reproduces its tail past `s`, one piece per length. -/
theorem pairsFrom_slices {α : Type} (T : List α) (lens : List Nat) (s : Nat)
    (h : T.length = s + lens.sum) :
    ((pairsFrom s lens).map (fun se => sliceL T se.1 se.2)).flatten = T.drop s ∧
    (pairsFrom s lens).map (fun se => (sliceL T se.1 se.2).length) = lens := by
  induction lens generalizing s with
  | nil =>
    refine ⟨?_, rfl⟩
    simp only [pairsFrom, List.map_nil, List.flatten_nil]
    symm
    apply List.drop_eq_nil_of_le
    simp at h
    omega
  | cons n rest ih =>
    have hlen : T.length = (s + n) + rest.sum := by simp [h, Nat.add_assoc]
    obtain ⟨ih1, ih2⟩ := ih (s + n) hlen
    have hslice : sliceL T s (s + n) = (T.drop s).take n := by
      simp [sliceL]
    have hdrop : T.drop (s + n) = (T.drop s).drop n := by
      rw [List.drop_drop, Nat.add_comm]
    have hlen2 : (sliceL T s (s + n)).length = n := by
      rw [hslice, List.length_take, List.length_drop]
      omega
    constructor
    · simp only [pairsFrom, List.map_cons, List.flatten_cons, ih1, hslice, hdrop]
      exact List.take_append_drop n (T.drop s)
    · simp only [pairsFrom, List.map_cons, ih2, hlen2]

theorem map_range_getD {α β : Type} (l : List α) (d : α) (f : α → β) :
    (List.range l.length).map (fun i => f (l.getD i d)) = l.map f := by
  induction l with
  | nil => rfl
  | cons a t ih =>
    rw [List.length_cons, List.range_succ_eq_map, List.map_cons, List.map_map, List.map_cons,
      List.getD_cons_zero]
    refine congrArg (f a :: ·) ?_
    rw [← ih]
    apply List.map_congr_left
    intro i _
    simp [Function.comp, List.getD_cons_succ]

/-! ### Least-squares facts for the non-linearity classifier -/

theorem powS_succ (n k : Nat) : powS (n + 1) k = powS n k + (n : ℚ) ^ k :=
  Finset.sum_range_succ _ n

theorem momS_succ (n : Nat) (y : Nat → ℚ) (k : Nat) :
    momS (n + 1) y k = momS n y k + (n : ℚ) ^ k * y n :=
  Finset.sum_range_succ _ n

theorem ssrQ_succ (n : Nat) (y : Nat → ℚ) (a b c : ℚ) :
    ssrQ (n + 1) y a b c = ssrQ n y a b c + (y n - (a + b * n + c * (n : ℚ) ^ 2)) ^ 2 :=
  Finset.sum_range_succ _ n

theorem deltaSq_succ (n : Nat) (d0 d1 d2 : ℚ) :
    deltaSq (n + 1) d0 d1 d2 = deltaSq n d0 d1 d2 + (d0 + d1 * n + d2 * (n : ℚ) ^ 2) ^ 2 :=
  Finset.sum_range_succ _ n

theorem deltaSq_nonneg (n : Nat) (d0 d1 d2 : ℚ) : 0 ≤ deltaSq n d0 d1 d2 :=
  Finset.sum_nonneg (fun _ _ => sq_nonneg _)

theorem deltaSq_eval (n : Nat) (d0 d1 d2 : ℚ) :
    deltaSq n d0 d1 d2 =
      d0 ^ 2 * powS n 0 + 2 * d0 * d1 * powS n 1 + (d1 ^ 2 + 2 * d0 * d2) * powS n 2
        + 2 * d1 * d2 * powS n 3 + d2 ^ 2 * powS n 4 := by
  induction n with
  | zero => simp [deltaSq, powS]
  | succ n ih =>
    rw [deltaSq_succ, powS_succ, powS_succ, powS_succ, powS_succ, powS_succ]
    linear_combination ih

/-- Shifting the quadratic in a residual sum of squares: the cross term is
controlled by the normal-equation defects of the reference quadratic. -/
theorem ssrQ_shift (n : Nat) (y : Nat → ℚ) (a b c a' b' c' : ℚ) :
    ssrQ n y a b c =
      ssrQ n y a' b' c' + deltaSq n (a' - a) (b' - b) (c' - c)
        + 2 * ((a' - a) * (momS n y 0 - (a' * powS n 0 + b' * powS n 1 + c' * powS n 2))
             + (b' - b) * (momS n y 1 - (a' * powS n 1 + b' * powS n 2 + c' * powS n 3))
             + (c' - c) * (momS n y 2 - (a' * powS n 2 + b' * powS n 3 + c' * powS n 4))) := by
  induction n with
  | zero => simp [ssrQ, deltaSq, momS, powS]
  | succ n ih =>
    rw [ssrQ_succ, ssrQ_succ, deltaSq_succ, momS_succ, momS_succ, momS_succ,
      powS_succ, powS_succ, powS_succ, powS_succ, powS_succ]
    linear_combination ih

theorem gramM_det (n : Nat) : (gramM n).det = fitDet n := by
  simp [Matrix.det_fin_three, gramM, fitDet]
  ring

theorem fitDet_ne_zero (n : Nat) (h3 : 3 ≤ n) : fitDet n ≠ 0 := by
  intro h0
  have hdet : (gramM n).det = 0 := by rw [gramM_det]; exact h0
  obtain ⟨v, hv, hmul⟩ := (Matrix.exists_mulVec_eq_zero_iff).2 hdet
  have h0' : powS n 0 * v 0 + powS n 1 * v 1 + powS n 2 * v 2 = 0 := by
    have := congrFun hmul 0
    simpa [gramM, Matrix.mulVec, Matrix.dotProduct, Fin.sum_univ_three] using this
  have h1' : powS n 1 * v 0 + powS n 2 * v 1 + powS n 3 * v 2 = 0 := by
    have := congrFun hmul 1
    simpa [gramM, Matrix.mulVec, Matrix.dotProduct, Fin.sum_univ_three] using this
  have h2' : powS n 2 * v 0 + powS n 3 * v 1 + powS n 4 * v 2 = 0 := by
    have := congrFun hmul 2
    simpa [gramM, Matrix.mulVec, Matrix.dotProduct, Fin.sum_univ_three] using this
  have hQ : deltaSq n (v 0) (v 1) (v 2) = 0 := by
    rw [deltaSq_eval]
    linear_combination (v 0) * h0' + (v 1) * h1' + (v 2) * h2'
  have hterm : ∀ i ∈ Finset.range n, (v 0 + v 1 * i + v 2 * (i : ℚ) ^ 2) ^ 2 = 0 := by
    rw [deltaSq] at hQ
    exact (Finset.sum_eq_zero_iff_of_nonneg (fun _ _ => sq_nonneg _)).1 hQ
  have hpt : ∀ i ∈ Finset.range n, v 0 + v 1 * i + v 2 * (i : ℚ) ^ 2 = 0 := by
    intro i hi
    exact pow_eq_zero_iff (n := 2) (by norm_num) |>.1 (hterm i hi)
  have e0 := hpt 0 (Finset.mem_range.2 (by omega))
  have e1 := hpt 1 (Finset.mem_range.2 (by omega))
  have e2 := hpt 2 (Finset.mem_range.2 (by omega))
  push_cast at e0 e1 e2
  have hv0 : v 0 = 0 := by linarith
  have hv1 : v 1 = 0 := by linarith
  have hv2 : v 2 = 0 := by linarith
  apply hv
  funext i
  fin_cases i <;> assumption

/-- The Cramer coefficients satisfy the normal equations. -/
theorem normal_eqs (n : Nat) (y : Nat → ℚ) (hd : fitDet n ≠ 0) :
    beta0 n y * powS n 0 + beta1 n y * powS n 1 + beta2 n y * powS n 2 = momS n y 0 ∧
    beta0 n y * powS n 1 + beta1 n y * powS n 2 + beta2 n y * powS n 3 = momS n y 1 ∧
    beta0 n y * powS n 2 + beta1 n y * powS n 3 + beta2 n y * powS n 4 = momS n y 2 := by
  refine ⟨?_, ?_, ?_⟩ <;>
    · rw [beta0, beta1, beta2]
      field_simp
      rw [fitDet]
      ring

/-- The modelled `np.polyfit` residual is the least-squares minimum. -/
theorem ssrQ_min (n : Nat) (h3 : 3 ≤ n) (y : Nat → ℚ) (a b c : ℚ) :
    ssrQ n y (beta0 n y) (beta1 n y) (beta2 n y) ≤ ssrQ n y a b c := by
  have hd := fitDet_ne_zero n h3
  obtain ⟨h0, h1, h2⟩ := normal_eqs n y hd
  have hs := ssrQ_shift n y a b c (beta0 n y) (beta1 n y) (beta2 n y)
  rw [h0, h1, h2] at hs
  have hnn := deltaSq_nonneg n (beta0 n y - a) (beta1 n y - b) (beta2 n y - c)
  linarith [hs]

/-! ### Extraction lemmas for the windower -/

theorem processAgent_some (p : Params) (frames : List ℚ) (idx : Nat) (pedId : ℚ)
    (pedRows : List Row) (a : Agent)
    (h : processAgent p frames idx pedId pedRows = some (some a)) :
    a = mkAgent p pedId (pedRows.map roundRow) ∧
    a.rows = pedRows.map roundRow ∧
    a.rows.length = p.seq_len ∧
    ∃ i0 i1 : Nat,
      List.indexOf? ((a.rows.headD dRow).frame) frames = some i0 ∧
      List.indexOf? ((a.rows.getLastD dRow).frame) frames = some i1 ∧
      ((i1 : ℤ) - idx + 1) - ((i0 : ℤ) - idx) = (p.seq_len : ℤ) ∧
      (i0 : ℤ) - idx = 0 := by
  unfold processAgent at h
  split at h
  · exact absurd h (by simp)
  next f0 rest heq =>
    split at h
    next i0 i1 h0 h1 =>
      split at h
      · exact absurd h (by simp)
      next hcond =>
        push_neg at hcond
        split at h
        next hpf =>
          have ha : a = mkAgent p pedId (f0 :: rest) := by
            have := Option.some.inj (Option.some.inj h)
            exact this.symm
          have hrows : a.rows = f0 :: rest := by rw [ha]; rfl
          refine ⟨by rw [ha, heq], by rw [hrows, heq], ?_, i0, i1, ?_, ?_, ?_, ?_⟩
          · rw [hrows]; exact hcond.2
          · rw [hrows]; exact h0
          · rw [hrows]; exact h1
          · exact hcond.1
          · exact hpf
        · exact absurd h (by simp)
    · exact absurd h (by simp)

theorem collectAgents_mem (p : Params) (frames : List ℚ) (idx : Nat) (curr : List Row)
    (peds : List ℚ) (l : List Agent)
    (h : collectAgents p frames idx curr peds = some l) (a : Agent) (ha : a ∈ l) :
    ∃ pedId, processAgent p frames idx pedId
      (curr.filter (fun r => decide (r.ped = pedId))) = some (some a) := by
  induction peds generalizing l with
  | nil =>
    rw [collectAgents] at h
    cases Option.some.inj h
    exact absurd ha (List.not_mem_nil a)
  | cons pd rest ih =>
    rw [collectAgents] at h
    split at h
    · exact absurd h (by simp)
    next hskip => exact ih l h ha
    next a' hkept =>
      split at h
      · exact absurd h (by simp)
      next l' hrest =>
        cases Option.some.inj h
        rcases List.mem_cons.1 ha with rfl | hmem
        · exact ⟨pd, hkept⟩
        · exact ih l' hrest hmem

theorem processWindow_some (p : Params) (frames : List ℚ) (frame_data : List (List Row))
    (idx : Nat) (l : List Agent) (h : processWindow p frames frame_data idx = some l)
    (a : Agent) (ha : a ∈ l) :
    ∃ pedId, processAgent p frames idx pedId
      ((windowData frame_data idx p.seq_len).filter (fun r => decide (r.ped = pedId)))
      = some (some a) := by
  rw [processWindow] at h
  split at h
  · exact absurd h (by simp)
  · exact collectAgents_mem p frames idx _ _ l h a ha

theorem buildWindowsGo_mem (p : Params) (frames : List ℚ) (frame_data : List (List Row))
    (starts : List Nat) (ws : List Window)
    (h : buildWindowsGo p frames frame_data starts = some ws) (w : Window) (hw : w ∈ ws) :
    processWindow p frames frame_data w.startIdx = some w.agents ∧
    p.min_ped < w.agents.length := by
  induction starts generalizing ws with
  | nil =>
    rw [buildWindowsGo] at h
    cases Option.some.inj h
    exact absurd hw (List.not_mem_nil w)
  | cons idx rest ih =>
    rw [buildWindowsGo] at h
    split at h
    · exact absurd h (by simp)
    next agents hpw =>
      split at h
      · exact absurd h (by simp)
      next ws' hrest =>
        split at h
        next hmin =>
          cases Option.some.inj h
          rcases List.mem_cons.1 hw with rfl | hmem
          · exact ⟨hpw, hmin⟩
          · exact ih _ hrest hmem
        · cases Option.some.inj h
          exact ih _ hrest hw

theorem buildFileWindows_mem (p : Params) (data : List Row) (ws : List Window)
    (h : buildFileWindows p data = some ws) (w : Window) (hw : w ∈ ws) :
    processWindow p (framesOf data) (frame_blocks data) w.startIdx = some w.agents ∧
    p.min_ped < w.agents.length :=
  buildWindowsGo_mem p (framesOf data) (frame_blocks data) _ ws h w hw

/-! ### Relative-position lemmas -/

theorem relOf_length (l : List (ℚ × ℚ)) : (relOf l).length = l.length := by
  cases l with
  | nil => rfl
  | cons x xs => simp [relOf, List.length_zipWith]

theorem relOf_getD_zero (l : List (ℚ × ℚ)) (h : l ≠ []) :
    (relOf l).getD 0 (0, 0) = (0, 0) := by
  cases l with
  | nil => exact absurd rfl h
  | cons x xs => rfl

theorem relOf_getD (l : List (ℚ × ℚ)) (t : Nat) (h1 : 1 ≤ t) (h2 : t < l.length) :
    (relOf l).getD t (0, 0) = l.getD t (0, 0) - l.getD (t - 1) (0, 0) := by
  cases l with
  | nil => simp at h2
  | cons x xs =>
    obtain ⟨u, rfl⟩ : ∃ u, t = u + 1 := ⟨t - 1, by omega⟩
    have hu2 : u < xs.length := by
      simp only [List.length_cons] at h2
      omega
    have hu : u < ((x :: xs).drop 1).length := by simpa using hu2
    have hzl : u < (((x :: xs).drop 1).zipWith
        (fun a b => (a.1 - b.1, a.2 - b.2)) (x :: xs)).length := by
      rw [List.length_zipWith]
      simp
      omega
    rw [relOf, List.getD_cons_succ, List.getD_eq_getElem _ _ hzl,
      List.getElem_zipWith]
    have hx1 : ((x :: xs).drop 1)[u] = (x :: xs)[u + 1] := by
      rw [List.getElem_drop]
      congr 1
      omega
    rw [hx1]
    rw [List.getD_eq_getElem (x :: xs) _ (by simpa using h2),
      Nat.add_sub_cancel, List.getD_eq_getElem (x :: xs) _ (by simp; omega)]
    cases h : (x :: xs)[u + 1]
    cases h' : (x :: xs)[u]
    simp [Prod.sub_def]

theorem wParse : parse_file wSchema wLines = some wRows := by decide

theorem wFactor : wParams.factor = 1 := by decide

theorem wSeqLen : wParams.seq_len = 5 := rfl

theorem wThr : wParams.threshold = 1 / 500 := rfl

theorem wMinPed : wParams.min_ped = 0 := rfl

theorem wSkip : wParams.skip = 1 := rfl

theorem wPredLen : wParams.pred_len = 4 := rfl

theorem wObsLen : wParams.obs_len = 1 := rfl

theorem wSch : wParams.schema = wSchema := rfl

theorem wBuild : buildFileWindows wParams wRows = some [wWin] := by
  norm_num [buildFileWindows, buildWindowsGo, processWindow, windowData, collectAgents,
    processAgent, mkAgent, roundRow, around4, roundHalfEven, framesOf, frame_blocks,
    npUniqueQ, sortLe, insertLe, window_starts, num_sequences, ceilDivI, pyRangeStep, relOf,
    transposeD, sliceRead, flatRow, team_slice, pos_slice, teamVecLen, poly_fit, polyfitRes,
    ssrQ, beta0, beta1, beta2, powS, momS, fitDet, lastN,
    wFactor, wSeqLen, wThr, wMinPed, wSkip, wPredLen, wObsLen, wSch,
    Finset.sum_range_succ, wSchema, wRows, wRow, wAgent, wWin, dRow,
    List.indexOf?, List.findIdx?, List.range_succ, List.getD, List.replicate]

theorem wAll : allWindows wParams [wLines] = some [wWin] := by
  simp only [allWindows, wSch, wParse, wBuild, List.append_nil]

theorem wBuildDs : buildDataset wParams [wLines] = some wDs := by
  rw [buildDataset, show ([wLines].take 2) = [wLines] from rfl, wAll]
  show some (mkDataset wParams [wWin]) = some wDs
  have : mkDataset wParams [wWin] = wDs := by decide
  rw [this]

/-! ### Claim theorems -/

/-- C1: in every window retained by the Sequence Windower, every kept agent
has exactly `W = obs_len + pred_len` rows within the window, with its
first-to-last frame ordinals spanning exactly `W` consecutive slots, and a
window is retained only when the surviving-agent count strictly exceeds
`min_ped`. -/
theorem C1_windower_kept_agents (p : Params) (data : List Row) (ws : List Window)
    (hb : buildFileWindows p data = some ws) (w : Window) (hw : w ∈ ws) :
    p.min_ped < w.agents.length ∧
    ∀ a ∈ w.agents, ∃ pedId : ℚ,
      a.rows = ((windowData (frame_blocks data) w.startIdx p.seq_len).filter
        (fun r => decide (r.ped = pedId))).map roundRow ∧
      a.rows.length = p.seq_len ∧
      ∃ i0 i1 : Nat,
        List.indexOf? ((a.rows.headD dRow).frame) (framesOf data) = some i0 ∧
        List.indexOf? ((a.rows.getLastD dRow).frame) (framesOf data) = some i1 ∧
        (i1 : ℤ) + 1 - (i0 : ℤ) = (p.seq_len : ℤ) ∧ (i0 : ℤ) = (w.startIdx : ℤ) := by
  obtain ⟨hpw, hmin⟩ := buildFileWindows_mem p data ws hb w hw
  refine ⟨hmin, fun a ha => ?_⟩
  obtain ⟨pedId, hpa⟩ := processWindow_some p _ _ _ _ hpw a ha
  obtain ⟨hmk, hrows, hlen, i0, i1, h0, h1, hspan, hpf⟩ := processAgent_some _ _ _ _ _ _ hpa
  exact ⟨pedId, hrows, hlen, i0, i1, h0, h1, by omega, by omega⟩

theorem C1_witness :
    buildFileWindows wParams wRows = some [wWin] ∧ wWin ∈ [wWin] ∧
    (wParams.min_ped < wWin.agents.length ∧
    ∀ a ∈ wWin.agents, ∃ pedId : ℚ,
      a.rows = ((windowData (frame_blocks wRows) wWin.startIdx wParams.seq_len).filter
        (fun r => decide (r.ped = pedId))).map roundRow ∧
      a.rows.length = wParams.seq_len ∧
      ∃ i0 i1 : Nat,
        List.indexOf? ((a.rows.headD dRow).frame) (framesOf wRows) = some i0 ∧
        List.indexOf? ((a.rows.getLastD dRow).frame) (framesOf wRows) = some i1 ∧
        (i1 : ℤ) + 1 - (i0 : ℤ) = (wParams.seq_len : ℤ) ∧
        (i0 : ℤ) = (wWin.startIdx : ℤ)) :=
  ⟨wBuild, List.mem_singleton.2 rfl,
    C1_windower_kept_agents wParams wRows [wWin] wBuild wWin (List.mem_singleton.2 rfl)⟩

/-- C6: for every agent kept in every retained window, the stored
relative-position sequence has `relative[0] = (0,0)` and
`relative[t] = absolute[t] - absolute[t-1]` for `1 ≤ t < seq_len`, where
`absolute` is the stored scaled position sequence. -/
theorem C6_relative_positions (p : Params) (data : List Row) (ws : List Window)
    (hb : buildFileWindows p data = some ws) (w : Window) (hw : w ∈ ws) :
    ∀ a ∈ w.agents,
      a.relSeq.length = p.seq_len ∧
      a.relSeq.getD 0 (0, 0) = (0, 0) ∧
      ∀ t : Nat, 1 ≤ t → t < p.seq_len →
        a.relSeq.getD t (0, 0) = a.absSeq.getD t (0, 0) - a.absSeq.getD (t - 1) (0, 0) := by
  obtain ⟨hpw, -⟩ := buildFileWindows_mem p data ws hb w hw
  intro a ha
  obtain ⟨pedId, hpa⟩ := processWindow_some p _ _ _ _ hpw a ha
  obtain ⟨hmk, hrows, hlen, -⟩ := processAgent_some _ _ _ _ _ _ hpa
  have hF : (List.map roundRow (List.filter (fun r => decide (r.ped = pedId))
      (windowData (frame_blocks data) w.startIdx p.seq_len))).length = p.seq_len := by
    rw [← hrows]
    exact hlen
  have hrel : a.relSeq = relOf a.absSeq := by rw [hmk]; rfl
  have habs : a.absSeq.length = p.seq_len := by
    rw [hmk]
    show (List.map _ _).length = _
    rw [List.length_map]
    exact hF
  refine ⟨?_, ?_, ?_⟩
  · rw [hrel, relOf_length, habs]
  · by_cases hX : a.absSeq = []
    · rw [hrel, hX]
      rfl
    · rw [hrel]
      exact relOf_getD_zero _ hX
  · intro t h1 h2
    rw [hrel]
    exact relOf_getD _ t h1 (by rw [habs]; exact h2)

theorem C6_witness :
    buildFileWindows wParams wRows = some [wWin] ∧ wWin ∈ [wWin] ∧
    (∀ a ∈ wWin.agents,
      a.relSeq.length = wParams.seq_len ∧
      a.relSeq.getD 0 (0, 0) = (0, 0) ∧
      ∀ t : Nat, 1 ≤ t → t < wParams.seq_len →
        a.relSeq.getD t (0, 0) = a.absSeq.getD t (0, 0) - a.absSeq.getD (t - 1) (0, 0)) :=
  ⟨wBuild, List.mem_singleton.2 rfl,
    C6_relative_positions wParams wRows [wWin] wBuild wWin (List.mem_singleton.2 rfl)⟩

/-- C2 (code bug witness): the Frame Grouper keys its blocks on the distinct
sorted values of column 0 (`np.unique(data[:, 0])`, source line 183) but
fills each block with the rows whose column 1 — the frame id — equals that
key (source line 186).  On data whose `idx` column differs from its frame-id
column, the keys are `[0, 1]` and every block is empty, although both rows
carry frame ids `100` and `101`. -/
theorem C2_frame_grouper_mismatch :
    framesOf c2data = [0, 1] ∧
    frame_blocks c2data = [[], []] ∧
    c2data.map (fun r => r.frame) = [100, 101] := by decide

/-- C3 counterexample: on a one-frame file with the default window width 20
and stride 1, `num_sequences` is `-18`, and the iteration is empty rather
than `num_sequences + 1 = -17` start indices long. -/
theorem C3_count_counterexample :
    ¬ (((window_starts 1 20 1).length : ℤ) = num_sequences 1 20 1 + 1) := by decide

/-- C3 (amended): for `skip ≥ 1` and `num_frames + skip ≥ W` (equivalently
`num_sequences ≥ 0`), the windower iterates exactly the multiples of `skip`
in the inclusive range `[0, num_sequences * skip]`, i.e. `num_sequences + 1`
start indices; for shorter files the iteration is empty instead. -/
theorem C3_window_iteration (F W skip : Nat) (hskip : 1 ≤ skip)
    (hF : (W : ℤ) ≤ (F : ℤ) + (skip : ℤ)) :
    window_starts F W skip
      = (List.range ((num_sequences F W skip).toNat + 1)).map (· * skip) ∧
    ((window_starts F W skip).length : ℤ) = num_sequences F W skip + 1 ∧
    ∀ s : Nat, s ∈ window_starts F W skip ↔
      ∃ k : Nat, (k : ℤ) ≤ num_sequences F W skip ∧ s = k * skip := by
  have hnw : 0 ≤ num_sequences F W skip := by
    rw [num_sequences, ceilDivI]
    apply Int.ediv_nonneg (by omega) (by omega)
  set nw := num_sequences F W skip with hnwdef
  set m := nw.toNat with hmdef
  have hm : (m : ℤ) = nw := Int.toNat_of_nonneg hnw
  have hstop : nw * (skip : ℤ) + 1 = ((m * skip + 1 : ℕ) : ℤ) := by
    push_cast
    rw [hm]
  have hpos : ¬ (nw * (skip : ℤ) + 1 ≤ 0) := by
    rw [hstop]
    push_cast
    omega
  have hcount : (m * skip + 1 + skip - 1) / skip = m + 1 := by
    have h1 : m * skip + 1 + skip - 1 = (m + 1) * skip := by ring_nf; omega
    rw [h1, Nat.mul_div_cancel _ (by omega)]
  have hws : window_starts F W skip = (List.range (m + 1)).map (· * skip) := by
    rw [window_starts, pyRangeStep, if_neg hpos, hstop, Int.toNat_natCast, hcount]
  refine ⟨hws, ?_, ?_⟩
  · rw [hws, List.length_map, List.length_range]
    push_cast
    rw [hm]
  · intro s
    rw [hws]
    constructor
    · intro hs
      obtain ⟨k, hk, rfl⟩ := List.mem_map.1 hs
      have hk' : k < m + 1 := List.mem_range.1 hk
      exact ⟨k, by rw [← hm]; exact_mod_cast by omega, rfl⟩
    · rintro ⟨k, hk, rfl⟩
      apply List.mem_map.2
      refine ⟨k, List.mem_range.2 ?_, rfl⟩
      have : (k : ℤ) ≤ (m : ℤ) := by rw [hm]; exact hk
      exact_mod_cast by omega

theorem C3_witness :
    (1 ≤ 2 ∧ (20 : ℤ) ≤ (25 : ℤ) + (2 : ℤ)) ∧
    (window_starts 25 20 2 = (List.range ((num_sequences 25 20 2).toNat + 1)).map (· * 2) ∧
     ((window_starts 25 20 2).length : ℤ) = num_sequences 25 20 2 + 1 ∧
     ∀ s : Nat, s ∈ window_starts 25 20 2 ↔
       ∃ k : Nat, (k : ℤ) ≤ num_sequences 25 20 2 ∧ s = k * 2) :=
  ⟨⟨by decide, by decide⟩, C3_window_iteration 25 20 2 (by decide) (by decide)⟩

/-- C9: dataset construction accumulates windows from only the first two
entries of the directory listing (`all_files[:2]`, source line 180): any
later file leaves the constructed dataset unchanged. -/
theorem C9_first_two_files (p : Params) (files : List (List (List Val))) :
    buildDataset p files = buildDataset p (files.take 2) := by
  have h : (files.take 2).take 2 = files.take 2 := by
    simp [List.take_take]
  rw [buildDataset, buildDataset, h]

/-- C10: `get` fails exactly on indices outside `[-len, len)`, and a
negative in-range index wraps around to window `len + index`. -/
theorem C10_get_indexing (d : TrajectoryDataset) (index : ℤ) :
    (d.get index = none ↔ ((d.num_seq : ℤ) ≤ index ∨ index < -(d.num_seq : ℤ))) ∧
    (-(d.num_seq : ℤ) ≤ index → index < 0 →
      d.get index = some (d.getN ((d.num_seq : ℤ) + index).toNat) ∧
      d.get index = d.get ((d.num_seq : ℤ) + index)) := by
  constructor
  · rw [TrajectoryDataset.get]
    split
    next h =>
      simp only [reduceCtorEq, false_iff]
      omega
    next h =>
      split
      next h2 =>
        simp only [reduceCtorEq, false_iff]
        omega
      next h2 =>
        simp only [true_iff]
        omega
  · intro h1 h2
    have hg : d.get index = some (d.getN ((d.num_seq : ℤ) + index).toNat) := by
      rw [TrajectoryDataset.get, if_neg (by omega), if_pos (by constructor <;> omega)]
    refine ⟨hg, ?_⟩
    rw [hg, TrajectoryDataset.get, if_pos (by constructor <;> omega)]

theorem C10_witness :
    (-(wDs.num_seq : ℤ) ≤ -1 ∧ (-1 : ℤ) < 0) ∧
    (wDs.get (-1) = some (wDs.getN ((wDs.num_seq : ℤ) + -1).toNat) ∧
     wDs.get (-1) = wDs.get ((wDs.num_seq : ℤ) + -1)) :=
  ⟨⟨by decide, by decide⟩, (C10_get_indexing wDs (-1)).2 (by decide) (by decide)⟩

/-! ### Row-encoder lemmas and claims C4 / C5 -/

theorem encodeTeamVec_some (team_ids : List Val) (v : Val) (team : List ℚ)
    (h : encodeTeamVec team_ids v = some team) :
    team.length = 3 ∧
    (v = Val.str "ball" → team = [0, 0, 1]) ∧
    (v ≠ Val.str "ball" →
      ∃ t : Nat, teamLookup team_ids v = some t ∧ t < 3 ∧
        team = ([0, 0, 0] : List ℚ).set t 1) := by
  unfold encodeTeamVec at h
  split at h
  next hball =>
    cases Option.some.inj h
    exact ⟨rfl, fun _ => rfl, fun hne => absurd hball hne⟩
  next hball =>
    split at h
    next t hlook =>
      split at h
      next ht =>
        cases Option.some.inj h
        refine ⟨by rw [List.length_set]; rfl, fun hb => absurd hb hball, fun _ => ⟨t, hlook, ht, rfl⟩⟩
      · exact absurd h (by simp)
    · exact absurd h (by simp)

theorem posFold_none (pos_ids : List String) (labels : List String) :
    labels.foldl (posStep pos_ids) none = none := by
  induction labels with
  | nil => rfl
  | cons lb rest ih =>
    rw [List.foldl_cons]
    exact ih

theorem posFold_length (pos_ids : List String) (labels : List String)
    (vec0 vec : List ℚ)
    (h : labels.foldl (posStep pos_ids) (some vec0) = some vec) :
    vec.length = vec0.length := by
  induction labels generalizing vec0 with
  | nil =>
    cases Option.some.inj h
    rfl
  | cons lb rest ih =>
    rw [List.foldl_cons] at h
    cases hidx : List.indexOf? lb pos_ids with
    | none =>
      rw [show posStep pos_ids (some vec0) lb = none from by rw [posStep, hidx]] at h
      rw [posFold_none pos_ids rest] at h
      exact absurd h (by simp)
    | some i =>
      rw [show posStep pos_ids (some vec0) lb = some (vec0.set i 1) from by
        rw [posStep, hidx]] at h
      have := ih (vec0.set i 1) h
      rw [this, List.length_set]

theorem encodePosVec_some (pos_ids : List String) (tag : String) (vec : List ℚ)
    (h : encodePosVec pos_ids tag = some vec) : vec.length = pos_ids.length := by
  unfold encodePosVec at h
  have := posFold_length pos_ids _ _ _ h
  rw [this, List.length_replicate]

theorem flat_drop5 (r : Row) : (flatRow r).drop 5 = r.team ++ r.pos := rfl

theorem flat_team_slice (r : Row) (h3 : r.team.length = 3) :
    sliceRead (flatRow r) (5, 8) = r.team := by
  show ((flatRow r).drop 5).take (8 - 5) = r.team
  rw [flat_drop5]
  rw [show (8 - 5 : Nat) = 3 from rfl, ← h3, List.take_left]

theorem flat_pos_slice (r : Row) (h3 : r.team.length = 3) :
    sliceRead (flatRow r) (8, 8 + r.pos.length) = r.pos := by
  show ((flatRow r).drop 8).take (8 + r.pos.length - 8) = r.pos
  have hd : (flatRow r).drop 8 = r.pos := by
    rw [show (8 : Nat) = 5 + 3 from rfl, ← List.drop_drop, flat_drop5, ← h3, List.drop_left]
  rw [hd, Nat.add_sub_cancel_left, List.take_length]

/-- C4 (amended): every encoded row's team segment has width 3 regardless of
`with_ball` (the source always allocates `[0.0] * 3`); when `with_ball` is
true the slices `[5, 8)` and `[8, 8 + |positions|)` computed by `parse_file`
read exactly the team and position vectors.  When `with_ball` is false the
slices are misaligned — see the counterexample. -/
theorem C4_row_layout (schema : Schema) (team_ids : List Val) (line : List Val) (r : Row)
    (he : encodeLine schema team_ids line = some r) :
    r.team.length = 3 ∧
    r.pos.length = schema.positions.length ∧
    (schema.with_ball = true →
      sliceRead (flatRow r) (team_slice schema) = r.team ∧
      sliceRead (flatRow r) (pos_slice schema) = r.pos) := by
  have hslice : ∀ (hr3 : r.team.length = 3), r.pos.length = schema.positions.length →
      schema.with_ball = true →
      sliceRead (flatRow r) (team_slice schema) = r.team ∧
      sliceRead (flatRow r) (pos_slice schema) = r.pos := by
    intro hr3 hrp hwb
    have hts : team_slice schema = (5, 8) := by
      rw [team_slice, teamVecLen, hwb]
      rfl
    have hps : pos_slice schema = (8, 8 + r.pos.length) := by
      rw [pos_slice, teamVecLen, hwb, hrp]
      rfl
    rw [hts, hps]
    exact ⟨flat_team_slice r hr3, flat_pos_slice r hr3⟩
  unfold encodeLine at he
  split at he
  · split at he
    next team ped hteam hped =>
      cases Option.some.inj he
      have h3 := (encodeTeamVec_some _ _ _ hteam).1
      exact ⟨h3, by simp, hslice h3 (by simp)⟩
    · exact absurd he (by simp)
  · split at he
    next hpos =>
      split at he
      next team ped pos hteam hped hposv =>
        cases Option.some.inj he
        have h3 := (encodeTeamVec_some _ _ _ hteam).1
        have hp := encodePosVec_some _ _ _ hposv
        exact ⟨h3, hp, hslice h3 hp⟩
      · exact absurd he (by simp)
    · exact absurd he (by simp)
  · exact absurd he (by simp)

/-- C4 counterexample: with `with_ball = false` the parsed row's team
segment still has width 3 (not `teamVecLen = 2`), and the computed slices
`[5, 7)` and `[7, 10)` do not read the team and position vectors. -/
theorem C4_counterexample :
    parse_file c4schema [c4line] = some [c4row] ∧
    ¬ (c4row.team.length = teamVecLen c4schema ∧
       sliceRead (flatRow c4row) (team_slice c4schema) = c4row.team ∧
       sliceRead (flatRow c4row) (pos_slice c4schema) = c4row.pos) := by decide

theorem C4_witness :
    encodeLine wSchema [Val.num 7] (wLine 0) = some (wRow 0) ∧
    ((wRow 0).team.length = 3 ∧
     (wRow 0).pos.length = wSchema.positions.length ∧
     (wSchema.with_ball = true →
       sliceRead (flatRow (wRow 0)) (team_slice wSchema) = (wRow 0).team ∧
       sliceRead (flatRow (wRow 0)) (pos_slice wSchema) = (wRow 0).pos)) :=
  ⟨by decide, C4_row_layout wSchema [Val.num 7] (wLine 0) (wRow 0) (by decide)⟩

/-- C5 (amended): every row produced by the Row Encoder carries a team
vector with exactly one slot set to 1.0; the literal `"ball"` sets only the
dedicated last slot, and any other team id sets only the slot at its lookup
index in the file-local team-id ordering.  (The `"ball"` literal is however
included in the collected vocabulary, not excluded — see the
counterexample.) -/
theorem C5_team_onehot (schema : Schema) (team_ids : List Val) (line : List Val) (r : Row)
    (he : encodeLine schema team_ids line = some r) :
    (∃ j : Nat, j < 3 ∧ r.team = ([0, 0, 0] : List ℚ).set j 1) ∧
    (line.getD 2 (Val.num 0) = Val.str "ball" → r.team = [0, 0, 1]) ∧
    (line.getD 2 (Val.num 0) ≠ Val.str "ball" →
      ∃ t : Nat, teamLookup team_ids (line.getD 2 (Val.num 0)) = some t ∧ t < 3 ∧
        r.team = ([0, 0, 0] : List ℚ).set t 1) := by
  have main : ∀ tv : Val, encodeTeamVec team_ids tv = some r.team →
      (∃ j : Nat, j < 3 ∧ r.team = ([0, 0, 0] : List ℚ).set j 1) ∧
      (tv = Val.str "ball" → r.team = [0, 0, 1]) ∧
      (tv ≠ Val.str "ball" →
        ∃ t : Nat, teamLookup team_ids tv = some t ∧ t < 3 ∧
          r.team = ([0, 0, 0] : List ℚ).set t 1) := by
    intro tv hteam
    obtain ⟨-, hball, hoth⟩ := encodeTeamVec_some _ _ _ hteam
    refine ⟨?_, hball, hoth⟩
    by_cases hb : tv = Val.str "ball"
    · exact ⟨2, by omega, by rw [hball hb]; rfl⟩
    · obtain ⟨t, -, ht, hset⟩ := hoth hb
      exact ⟨t, ht, hset⟩
  unfold encodeLine at he
  split at he
  · split at he
    next team ped hteam hped =>
      cases Option.some.inj he
      exact main _ hteam
    · exact absurd he (by simp)
  · split at he
    next hpos =>
      split at he
      next team ped pos hteam hped hposv =>
        cases Option.some.inj he
        exact main _ hteam
      · exact absurd he (by simp)
    · exact absurd he (by simp)
  · exact absurd he (by simp)

/-- C5 counterexample: the team vocabulary collected by `parse_file`
(source line 307, `np.unique([line[2] for line in lines])`) contains the
`"ball"` literal (string-coerced alongside the numeric ids) instead of
excluding it. -/
theorem C5_counterexample :
    Val.str "ball" ∈ npUniqueVal (c5lines.map (fun l => l.getD 2 (Val.num 0))) := by decide

theorem C5_witness :
    encodeLine wSchema [Val.num 7] c5BallLine = some c5BallRow ∧
    ((∃ j : Nat, j < 3 ∧ c5BallRow.team = ([0, 0, 0] : List ℚ).set j 1) ∧
     (c5BallLine.getD 2 (Val.num 0) = Val.str "ball" → c5BallRow.team = [0, 0, 1]) ∧
     (c5BallLine.getD 2 (Val.num 0) ≠ Val.str "ball" →
       ∃ t : Nat, teamLookup [Val.num 7] (c5BallLine.getD 2 (Val.num 0)) = some t ∧ t < 3 ∧
         c5BallRow.team = ([0, 0, 0] : List ℚ).set t 1)) :=
  ⟨by decide, C5_team_onehot wSchema [Val.num 7] c5BallLine c5BallRow (by decide)⟩

/-- C7: `poly_fit` fits independent degree-2 least-squares polynomials to
the x and y components of only the last `pred_len` samples against the
index sequence `0..pred_len-1` — the modelled residuals are minimal over
all quadratics — and returns 1.0 exactly when the two residual
sums-of-squares add up to at least the threshold, else 0.0. -/
theorem C7_poly_fit (trajx trajy : List ℚ) (pred_len : Nat) (threshold : ℚ)
    (h4 : 4 ≤ pred_len) (hx : pred_len ≤ trajx.length) (hy : pred_len ≤ trajy.length) :
    lastN trajx pred_len = trajx.drop (trajx.length - pred_len) ∧
    (lastN trajx pred_len).length = pred_len ∧
    (lastN trajy pred_len).length = pred_len ∧
    (∀ a b c : ℚ, polyfitRes (lastN trajx pred_len)
        ≤ ssrQ pred_len (fun i => (lastN trajx pred_len).getD i 0) a b c) ∧
    (∀ a b c : ℚ, polyfitRes (lastN trajy pred_len)
        ≤ ssrQ pred_len (fun i => (lastN trajy pred_len).getD i 0) a b c) ∧
    (poly_fit trajx trajy pred_len threshold = 1 ↔
      threshold ≤ polyfitRes (lastN trajx pred_len) + polyfitRes (lastN trajy pred_len)) ∧
    (poly_fit trajx trajy pred_len threshold = 0 ↔
      ¬ threshold ≤ polyfitRes (lastN trajx pred_len) + polyfitRes (lastN trajy pred_len)) := by
  have key : ∀ l : List ℚ, l.length = pred_len →
      ∀ a b c : ℚ, polyfitRes l ≤ ssrQ pred_len (fun i => l.getD i 0) a b c := by
    intro l hl a b c
    rw [polyfitRes, hl]
    exact ssrQ_min pred_len (by omega) (fun i => l.getD i 0) a b c
  have hlx : (lastN trajx pred_len).length = pred_len := by
    rw [lastN, List.length_drop]
    omega
  have hly : (lastN trajy pred_len).length = pred_len := by
    rw [lastN, List.length_drop]
    omega
  refine ⟨rfl, hlx, hly, key _ hlx, key _ hly, ?_, ?_⟩
  · by_cases hc : threshold ≤ polyfitRes (lastN trajx pred_len) + polyfitRes (lastN trajy pred_len)
    · simp [poly_fit, hc]
    · simp [poly_fit, hc]
  · by_cases hc : threshold ≤ polyfitRes (lastN trajx pred_len) + polyfitRes (lastN trajy pred_len)
    · simp [poly_fit, hc]
    · simp [poly_fit, hc]

theorem C7_witness :
    (4 ≤ 4 ∧ 4 ≤ ([0, 1, 2, 3, 4] : List ℚ).length ∧ 4 ≤ ([0, 0, 0, 0, 0] : List ℚ).length) ∧
    (lastN [0, 1, 2, 3, 4] 4 = ([0, 1, 2, 3, 4] : List ℚ).drop (([0, 1, 2, 3, 4] : List ℚ).length - 4) ∧
     (lastN [0, 1, 2, 3, 4] 4).length = 4 ∧
     (lastN [0, 0, 0, 0, 0] 4).length = 4 ∧
     (∀ a b c : ℚ, polyfitRes (lastN [0, 1, 2, 3, 4] 4)
         ≤ ssrQ 4 (fun i => (lastN [0, 1, 2, 3, 4] 4).getD i 0) a b c) ∧
     (∀ a b c : ℚ, polyfitRes (lastN [0, 0, 0, 0, 0] 4)
         ≤ ssrQ 4 (fun i => (lastN [0, 0, 0, 0, 0] 4).getD i 0) a b c) ∧
     (poly_fit [0, 1, 2, 3, 4] [0, 0, 0, 0, 0] 4 (1 / 500) = 1 ↔
       1 / 500 ≤ polyfitRes (lastN [0, 1, 2, 3, 4] 4) + polyfitRes (lastN [0, 0, 0, 0, 0] 4)) ∧
     (poly_fit [0, 1, 2, 3, 4] [0, 0, 0, 0, 0] 4 (1 / 500) = 0 ↔
       ¬ 1 / 500 ≤ polyfitRes (lastN [0, 1, 2, 3, 4] 4) + polyfitRes (lastN [0, 0, 0, 0, 0] 4))) :=
  ⟨⟨by decide, by decide, by decide⟩,
    C7_poly_fit [0, 1, 2, 3, 4] [0, 0, 0, 0, 0] 4 (1 / 500) (by decide) (by decide) (by decide)⟩

theorem slices_flatten_eq {α : Type} (T : List α) (lens : List Nat) (h : T.length = lens.sum) :
    ((pairsFrom 0 lens).map (fun se => sliceL T se.1 se.2)).flatten = T := by
  have := (pairsFrom_slices T lens 0 (by omega)).1
  simpa using this

theorem slices_lengths_eq {α : Type} (T : List α) (lens : List Nat) (h : T.length = lens.sum) :
    (pairsFrom 0 lens).map (fun se => (sliceL T se.1 se.2).length) = lens :=
  (pairsFrom_slices T lens 0 (by omega)).2

/-- C8: applying the Batch Collator to the list of `get(i)` for
`i in range(length())` reproduces the dataset's cumulative `(start, end)`
ranges, the final `end` equals the total agent count (the sum of the
per-window agent counts), and every batch tensor is the agent-axis
concatenation of the per-window tensors (the full dataset tensor, in the
collator's permuted layout). -/
theorem C8_collate_roundtrip (p : Params) (files : List (List (List Val)))
    (ds : TrajectoryDataset) (hb : buildDataset p files = some ds) :
    (seq_collate (allSamples ds)).seq_start_end = ds.seq_start_end ∧
    ((seq_collate (allSamples ds)).seq_start_end.getLastD (0, 0)).2
      = ((allSamples ds).map (fun s => s.obs_traj.length)).sum ∧
    ((allSamples ds).map (fun s => s.obs_traj.length)).sum = ds.obs_traj.length ∧
    (seq_collate (allSamples ds)).obs_traj = permute201 ds.obs_traj ∧
    (seq_collate (allSamples ds)).pred_traj = permute201 ds.pred_traj ∧
    (seq_collate (allSamples ds)).obs_traj_rel = permute201 ds.obs_traj_rel ∧
    (seq_collate (allSamples ds)).pred_traj_rel = permute201 ds.pred_traj_rel ∧
    (seq_collate (allSamples ds)).obs_team_vec = permute201 ds.obs_team_vec ∧
    (seq_collate (allSamples ds)).obs_pos_vec = permute201 ds.obs_pos_vec ∧
    (seq_collate (allSamples ds)).pred_team_vec = permute201 ds.obs_team_vec_pred ∧
    (seq_collate (allSamples ds)).pred_pos_vec = permute201 ds.obs_pos_vec_pred ∧
    (seq_collate (allSamples ds)).non_linear_ped = ds.non_linear_ped ∧
    (seq_collate (allSamples ds)).loss_mask = ds.loss_mask := by
  rw [buildDataset] at hb
  split at hb
  · exact absurd hb (by simp)
  · exact absurd hb (by simp)
  next w ws' heq =>
    cases Option.some.inj hb
    set windows := w :: ws' with hwdef
    set lens := windows.map (fun w => w.agents.length) with hlensdef
    set A := (windows.map Window.agents).flatten with hAdef
    have hlensne : lens ≠ [] := by simp [hlensdef, hwdef]
    have hAlen : A.length = lens.sum := by
      rw [hAdef, hlensdef, List.length_flatten, List.map_map]
      rfl
    have hsse : (mkDataset p windows).seq_start_end = pairsFrom 0 lens := by
      rw [mkDataset]
      exact seqStartEndOf_eq_pairsFrom lens
    have hnum : (mkDataset p windows).num_seq = (pairsFrom 0 lens).length := by
      rw [mkDataset, pairsFrom_length, hlensdef, List.length_map]
    have hsamples : allSamples (mkDataset p windows)
        = (pairsFrom 0 lens).map (sampleOf (mkDataset p windows)) := by
      rw [allSamples, hnum]
      have hfun : (mkDataset p windows).getN
          = fun i => sampleOf (mkDataset p windows) ((pairsFrom 0 lens).getD i (0, 0)) := by
        funext i
        rw [TrajectoryDataset.getN, hsse]
      rw [hfun]
      exact map_range_getD (pairsFrom 0 lens) (0, 0) (sampleOf (mkDataset p windows))
    have hobs_len : (mkDataset p windows).obs_traj.length = lens.sum := by
      show (A.map (fun a => a.seqT.map (List.take p.obs_len))).length = lens.sum
      rw [List.length_map, hAlen]
    have hcounts : (allSamples (mkDataset p windows)).map (fun s => s.obs_traj.length)
        = lens := by
      rw [hsamples, List.map_map]
      have hcomp : (fun s => GetOut.obs_traj s |>.length) ∘ sampleOf (mkDataset p windows)
          = fun se : Nat × Nat => (sliceL (mkDataset p windows).obs_traj se.1 se.2).length := rfl
      rw [hcomp]
      exact slices_lengths_eq _ lens hobs_len
    refine ⟨?_, ?_, ?_, ?_, ?_, ?_, ?_, ?_, ?_, ?_, ?_, ?_, ?_⟩
    · show seqStartEndOf ((allSamples (mkDataset p windows)).map (fun s => s.obs_traj.length))
        = (mkDataset p windows).seq_start_end
      rw [hcounts, hsse, seqStartEndOf_eq_pairsFrom]
    · show ((seqStartEndOf ((allSamples (mkDataset p windows)).map
          (fun s => s.obs_traj.length))).getLastD (0, 0)).2
        = ((allSamples (mkDataset p windows)).map (fun s => s.obs_traj.length)).sum
      rw [hcounts, seqStartEndOf_eq_pairsFrom]
      simpa using pairsFrom_getLastD 0 lens hlensne (0, 0)
    · rw [hcounts, hobs_len]
    · show permute201 (((allSamples (mkDataset p windows)).map
          (fun s => s.obs_traj)).flatten) = permute201 (mkDataset p windows).obs_traj
      rw [hsamples, List.map_map]
      rw [show (fun s => GetOut.obs_traj s) ∘ sampleOf (mkDataset p windows)
          = fun se : Nat × Nat => sliceL (mkDataset p windows).obs_traj se.1 se.2 from rfl]
      rw [slices_flatten_eq _ lens (by
        show (A.map (fun a => a.seqT.map (List.take p.obs_len))).length = lens.sum
        rw [List.length_map, hAlen])]
    · show permute201 (((allSamples (mkDataset p windows)).map
          (fun s => s.pred_traj)).flatten) = permute201 (mkDataset p windows).pred_traj
      rw [hsamples, List.map_map]
      rw [show (fun s => GetOut.pred_traj s) ∘ sampleOf (mkDataset p windows)
          = fun se : Nat × Nat => sliceL (mkDataset p windows).pred_traj se.1 se.2 from rfl]
      rw [slices_flatten_eq _ lens (by
        show (A.map (fun a => a.seqT.map (List.drop p.obs_len))).length = lens.sum
        rw [List.length_map, hAlen])]
    · show permute201 (((allSamples (mkDataset p windows)).map
          (fun s => s.obs_traj_rel)).flatten) = permute201 (mkDataset p windows).obs_traj_rel
      rw [hsamples, List.map_map]
      rw [show (fun s => GetOut.obs_traj_rel s) ∘ sampleOf (mkDataset p windows)
          = fun se : Nat × Nat => sliceL (mkDataset p windows).obs_traj_rel se.1 se.2 from rfl]
      rw [slices_flatten_eq _ lens (by
        show (A.map (fun a => a.relT.map (List.take p.obs_len))).length = lens.sum
        rw [List.length_map, hAlen])]
    · show permute201 (((allSamples (mkDataset p windows)).map
          (fun s => s.pred_traj_rel)).flatten) = permute201 (mkDataset p windows).pred_traj_rel
      rw [hsamples, List.map_map]
      rw [show (fun s => GetOut.pred_traj_rel s) ∘ sampleOf (mkDataset p windows)
          = fun se : Nat × Nat => sliceL (mkDataset p windows).pred_traj_rel se.1 se.2 from rfl]
      rw [slices_flatten_eq _ lens (by
        show (A.map (fun a => a.relT.map (List.drop p.obs_len))).length = lens.sum
        rw [List.length_map, hAlen])]
    · show permute201 (((allSamples (mkDataset p windows)).map
          (fun s => s.obs_team_vec)).flatten) = permute201 (mkDataset p windows).obs_team_vec
      rw [hsamples, List.map_map]
      rw [show (fun s => GetOut.obs_team_vec s) ∘ sampleOf (mkDataset p windows)
          = fun se : Nat × Nat => sliceL (mkDataset p windows).obs_team_vec se.1 se.2 from rfl]
      rw [slices_flatten_eq _ lens (by
        show (A.map (fun a => a.teamSeq.map (List.take p.obs_len))).length = lens.sum
        rw [List.length_map, hAlen])]
    · show permute201 (((allSamples (mkDataset p windows)).map
          (fun s => s.obs_pos_vec)).flatten) = permute201 (mkDataset p windows).obs_pos_vec
      rw [hsamples, List.map_map]
      rw [show (fun s => GetOut.obs_pos_vec s) ∘ sampleOf (mkDataset p windows)
          = fun se : Nat × Nat => sliceL (mkDataset p windows).obs_pos_vec se.1 se.2 from rfl]
      rw [slices_flatten_eq _ lens (by
        show (A.map (fun a => a.posSeq.map (List.take p.obs_len))).length = lens.sum
        rw [List.length_map, hAlen])]
    · show permute201 (((allSamples (mkDataset p windows)).map
          (fun s => s.pred_team_vec)).flatten) = permute201 (mkDataset p windows).obs_team_vec_pred
      rw [hsamples, List.map_map]
      rw [show (fun s => GetOut.pred_team_vec s) ∘ sampleOf (mkDataset p windows)
          = fun se : Nat × Nat => sliceL (mkDataset p windows).obs_team_vec_pred se.1 se.2 from rfl]
      rw [slices_flatten_eq _ lens (by
        show (A.map (fun a => a.teamSeq.map (List.drop p.obs_len))).length = lens.sum
        rw [List.length_map, hAlen])]
    · show permute201 (((allSamples (mkDataset p windows)).map
          (fun s => s.pred_pos_vec)).flatten) = permute201 (mkDataset p windows).obs_pos_vec_pred
      rw [hsamples, List.map_map]
      rw [show (fun s => GetOut.pred_pos_vec s) ∘ sampleOf (mkDataset p windows)
          = fun se : Nat × Nat => sliceL (mkDataset p windows).obs_pos_vec_pred se.1 se.2 from rfl]
      rw [slices_flatten_eq _ lens (by
        show (A.map (fun a => a.posSeq.map (List.drop p.obs_len))).length = lens.sum
        rw [List.length_map, hAlen])]
    · show ((allSamples (mkDataset p windows)).map
          (fun s => s.non_linear_ped)).flatten = (mkDataset p windows).non_linear_ped
      rw [hsamples, List.map_map]
      rw [show (fun s => GetOut.non_linear_ped s) ∘ sampleOf (mkDataset p windows)
          = fun se : Nat × Nat => sliceL (mkDataset p windows).non_linear_ped se.1 se.2 from rfl]
      rw [slices_flatten_eq _ lens (by
        show (A.map Agent.nonLinear).length = lens.sum
        rw [List.length_map, hAlen])]
    · show ((allSamples (mkDataset p windows)).map
          (fun s => s.loss_mask)).flatten = (mkDataset p windows).loss_mask
      rw [hsamples, List.map_map]
      rw [show (fun s => GetOut.loss_mask s) ∘ sampleOf (mkDataset p windows)
          = fun se : Nat × Nat => sliceL (mkDataset p windows).loss_mask se.1 se.2 from rfl]
      rw [slices_flatten_eq _ lens (by
        show (A.map Agent.lossMask).length = lens.sum
        rw [List.length_map, hAlen])]

theorem C8_witness :
    buildDataset wParams [wLines] = some wDs ∧
    ((seq_collate (allSamples wDs)).seq_start_end = wDs.seq_start_end ∧
     ((seq_collate (allSamples wDs)).seq_start_end.getLastD (0, 0)).2
       = ((allSamples wDs).map (fun s => s.obs_traj.length)).sum ∧
     ((allSamples wDs).map (fun s => s.obs_traj.length)).sum = wDs.obs_traj.length ∧
     (seq_collate (allSamples wDs)).obs_traj = permute201 wDs.obs_traj ∧
     (seq_collate (allSamples wDs)).pred_traj = permute201 wDs.pred_traj ∧
     (seq_collate (allSamples wDs)).obs_traj_rel = permute201 wDs.obs_traj_rel ∧
     (seq_collate (allSamples wDs)).pred_traj_rel = permute201 wDs.pred_traj_rel ∧
     (seq_collate (allSamples wDs)).obs_team_vec = permute201 wDs.obs_team_vec ∧
     (seq_collate (allSamples wDs)).obs_pos_vec = permute201 wDs.obs_pos_vec ∧
     (seq_collate (allSamples wDs)).pred_team_vec = permute201 wDs.obs_team_vec_pred ∧
     (seq_collate (allSamples wDs)).pred_pos_vec = permute201 wDs.obs_pos_vec_pred ∧
     (seq_collate (allSamples wDs)).non_linear_ped = wDs.non_linear_ped ∧
     (seq_collate (allSamples wDs)).loss_mask = wDs.loss_mask) :=
  ⟨wBuildDs, C8_collate_roundtrip wParams [wLines] wDs wBuildDs⟩
